import Mathlib

/-!
# Verification of `process_artifacts.py` (sdc_aws_artifacts_lambda)

Shallow embedding of the pure/control-flow parts of
`lambda_function/src/process_artifacts/process_artifacts.py`:

* `get_cdftracker_config` — builds the CDFTracker configuration from the
  swxsoc mission configuration: an instrument list and the enumeration of
  all non-empty instrument subsets as fixed-width slot records.
* `handle_event` — the lambda entry point: decodes the SNS message, loops
  over the S3 records, returns 200 from inside the loop, 500 on exception,
  and falls through (returning `None`) when the record list is empty.
* `process_artifacts` — the sequencing of the three side-effect generator
  methods (`_generate_slack_artifacts`, `_generate_timestream_artifacts`,
  `_generate_cdftracker_artifacts`) with their per-method exception handlers.

External collaborators (S3, Slack, Timestream, the database) are modelled as
behaviours: the exception, if any, their call raises.
-/

namespace ProcessArtifacts

/-- The `mission` section of the swxsoc configuration dict, as read by
`get_cdftracker_config`: parallel name lists and the mission name. -/
structure SwxConfigMission where
  mission_name : String
  inst_names : List String
  inst_fullnames : List String
  inst_shortnames : List String
  inst_targetnames : List String
deriving DecidableEq, Repr

/-- One entry of the `instruments_list` built by `get_cdftracker_config`. -/
structure Instrument where
  instrument_id : Nat
  description : String
  full_name : String
  short_name : String
deriving DecidableEq, Repr

/-- One entry of `instrument_configurations`: the dict
`{"instrument_configuration_id": cid, "instrument_1_id": ..., ..., "instrument_N_id": ...}`.
`slots` holds the `instrument_(i+1)_id` field at position `i` (0-based). -/
structure InstrumentConfiguration where
  instrument_configuration_id : Nat
  slots : List (Option Nat)
deriving DecidableEq, Repr

/-- The dict returned by `get_cdftracker_config`. -/
structure CdfTrackerConfig where
  mission_name : String
  instruments : List Instrument
  instrument_configurations : List InstrumentConfiguration
deriving DecidableEq, Repr

/-- `itertools.combinations` specialised to lists of naturals: all length-`r`
subsequences of `l`, in the order itertools yields them (lexicographic by
position; for a sorted input, lexicographic by value). -/
def combinations : Nat → List Nat → List (List Nat)
  | 0, _ => [[]]
  | _ + 1, [] => []
  | r + 1, x :: xs => (combinations r xs).map (fun c => x :: c) ++ combinations (r + 1) xs

/-- The slot fields of one configuration dict:
`{f"instrument_{i+1}_id": combo[i] if i < len(combo) else None for i in range(n)}`. -/
def slotList (n : Nat) (combo : List Nat) : List (Option Nat) :=
  (List.range n).map (fun i => if i < combo.length then some (combo.getD i 0) else none)

/-- The body of the enumeration loop: turn each combination into a
configuration dict, assigning ids from the mutable counter `config_id`
(incremented by one per appended configuration). -/
def buildConfigs (n : Nat) : List (List Nat) → Nat → List InstrumentConfiguration
  | [], _ => []
  | c :: cs, cid =>
    { instrument_configuration_id := cid, slots := slotList n c } :: buildConfigs n cs (cid + 1)

/-- The nested loop `for r in range(1, n+1): for combo in combinations(range(1, n+1), r)`,
flattened in iteration order. -/
def allCombos (n : Nat) : List (List Nat) :=
  (List.range' 1 n).flatMap (fun r => combinations r (List.range' 1 n))

/-- `ArtifactProcessor.get_cdftracker_config`: builds the instrument list
(1-based ids in input order, description `"{full_name} ({target_name})"`) and
the enumeration of all non-empty instrument subsets, starting `config_id` at 1. -/
def get_cdftracker_config (swxsoc_config : SwxConfigMission) : CdfTrackerConfig :=
  let instruments := swxsoc_config.inst_names
  let instruments_list : List Instrument :=
    (List.range instruments.length).map (fun idx =>
      { instrument_id := idx + 1
        description :=
          swxsoc_config.inst_fullnames.getD idx "" ++ " ("
            ++ swxsoc_config.inst_targetnames.getD idx "" ++ ")"
        full_name := swxsoc_config.inst_fullnames.getD idx ""
        short_name := swxsoc_config.inst_shortnames.getD idx "" })
  { mission_name := swxsoc_config.mission_name
    instruments := instruments_list
    instrument_configurations := buildConfigs instruments.length (allCombos instruments.length) 1 }

/-- Well-formed mission configuration: the parallel name lists have equal
length (the Python code indexes all of them by the positions of `inst_names`,
so a shorter list would raise `IndexError`). -/
def WellFormed (sc : SwxConfigMission) : Prop :=
  sc.inst_fullnames.length = sc.inst_names.length ∧
    sc.inst_shortnames.length = sc.inst_names.length ∧
      sc.inst_targetnames.length = sc.inst_names.length

instance (sc : SwxConfigMission) : Decidable (WellFormed sc) := by
  unfold WellFormed; infer_instance

/-- The values of the present (non-`None`) slot fields of a configuration,
in slot order. -/
def presentSlots (c : InstrumentConfiguration) : List Nat :=
  c.slots.filterMap id

/-- The enumeration order of the spec: ascending subset size first, then
lexicographic within one size. -/
def sizeLexLt (a b : List Nat) : Prop :=
  a.length < b.length ∨ (a.length = b.length ∧ List.Lex (· < ·) a b)

/-- A concrete well-formed three-instrument mission configuration. -/
def scEx : SwxConfigMission :=
  { mission_name := "hermes"
    inst_names := ["eea", "nemisis", "merit"]
    inst_fullnames := ["Electron Electrostatic Analyzer", "Noise Eliminating Magnetometer", "Miniaturized Electron pRoton Telescope"]
    inst_shortnames := ["EEA", "NEM", "MERIT"]
    inst_targetnames := ["EEA", "MAG", "MERIT"] }

/-- Statement-level state-passing embedding of `get_cdftracker_config`: the
argument dict is threaded through the body and returned alongside the result.
No statement of the source assigns into `swxsoc_config` — `config.update`
targets the dict created fresh in the same loop iteration and `append` targets
the fresh local list `instrument_configurations` — so every statement passes
the argument state through unchanged. -/
def get_cdftracker_config_st (swxsoc_config : SwxConfigMission) :
    SwxConfigMission × CdfTrackerConfig :=
  (swxsoc_config, get_cdftracker_config swxsoc_config)

/-! ## The event handler and the side-effect generators -/

/-- One element of the decoded SNS message's `"Records"` list: the S3 bucket
name and object key the handler extracts from it. -/
structure S3Record where
  bucket : String
  key : String
deriving DecidableEq, Repr

/-- The HTTP-style response dict `handle_event` returns (when it returns one). -/
structure LambdaResponse where
  statusCode : Nat
  body : String
deriving DecidableEq, Repr

/-- The `for s3_event in records:` loop of `handle_event`. Processing a record
(constructing `ArtifactProcessor`, modelled by the fallible action `proc`) may
raise; on success the loop body returns the 200 response immediately, so later
records are never reached. An exhausted loop falls through: the function ends
without a `return`, i.e. it returns `None` — modelled as `.ok none`. The list
in the result collects the records `proc` was invoked on. -/
def recordsLoop (proc : S3Record → Except String Unit) :
    List S3Record → Except String (Option LambdaResponse) × List S3Record
  | [] => (.ok none, [])
  | r :: _ =>
    match proc r with
    | .ok _ => (.ok (some ⟨200, "Artifacts Processed Successfully"⟩), [r])
    | .error e => (.error e, [r])

/-- `handle_event`: run the loop inside the top-level `try`; any exception is
caught and converted to the 500 response. Returns the handler's return value
(`none` models Python's implicit `return None`) and the records processed. -/
def handle_event (proc : S3Record → Except String Unit) (records : List S3Record) :
    Option LambdaResponse × List S3Record :=
  match recordsLoop proc records with
  | (.ok out, ps) => (out, ps)
  | (.error e, ps) => (some ⟨500, "Error Processing Artifacts: " ++ e⟩, ps)

/-- The exceptions distinguished by the handlers in the generator methods. -/
inductive PyExn where
  /-- `slack_sdk.errors.SlackApiError`, carrying `e.response["Error"]["Code"]`. -/
  | slackApiError (code : Int)
  /-- `botocore.exceptions.ClientError`. -/
  | clientError
  /-- Any other exception. -/
  | otherExn (msg : String)
deriving DecidableEq, Repr

/-- `_generate_slack_artifacts`: the whole body is inside `try`, with handlers
`except SlackApiError` and `except Exception`, both of which only log. `beh`
is the exception, if any, raised by the body. -/
def generate_slack_artifacts (beh : Option PyExn) : Except PyExn Unit :=
  match beh with
  | none => .ok ()
  | some (.slackApiError _) => .ok ()
  | some _ => .ok ()

/-- `_generate_timestream_artifacts`: the body is inside `try`, but the only
handler is `except botocore.exceptions.ClientError` — any other exception
propagates to the caller. -/
def generate_timestream_artifacts (beh : Option PyExn) : Except PyExn Unit :=
  match beh with
  | none => .ok ()
  | some .clientError => .ok ()
  | some e => .error e

/-- `_generate_cdftracker_artifacts`: when `RDS_SECRET_ARN` is unset the body
is skipped; otherwise everything runs inside `try` with a catch-all
`except Exception` that only logs. -/
def generate_cdftracker_artifacts (secret_arn : Option String) (beh : Option PyExn) :
    Except PyExn Unit :=
  match secret_arn with
  | none => .ok ()
  | some _ =>
    match beh with
    | none => .ok ()
    | some _ => .ok ()

/-- Which of the three generator methods were invoked during `_process_artifacts`. -/
structure StepsRun where
  slack : Bool
  timestream : Bool
  cdftracker : Bool
deriving DecidableEq, Repr

/-- The tail of `_process_artifacts`: the three generator calls in source
order. The first component is the exception, if any, that propagates out of
`_process_artifacts`; the second records which generators ran. -/
def process_artifacts (slackBeh tsBeh : Option PyExn) (secret_arn : Option String)
    (cdfBeh : Option PyExn) : Option PyExn × StepsRun :=
  match generate_slack_artifacts slackBeh with
  | .error e => (some e, ⟨true, false, false⟩)
  | .ok _ =>
    match generate_timestream_artifacts tsBeh with
    | .error e => (some e, ⟨true, true, false⟩)
    | .ok _ =>
      match generate_cdftracker_artifacts secret_arn cdfBeh with
      | .error e => (some e, ⟨true, true, true⟩)
      | .ok _ => (none, ⟨true, true, true⟩)

/-! ## Combinatorial lemmas about `combinations` and `allCombos` -/

theorem length_combinations : ∀ (r : Nat) (l : List Nat),
    (combinations r l).length = l.length.choose r
  | 0, l => by simp [combinations]
  | r + 1, [] => by simp [combinations]
  | r + 1, x :: xs => by
    simp [combinations, length_combinations r xs, length_combinations (r + 1) xs,
      Nat.choose_succ_succ, Nat.add_comm]

theorem mem_combinations : ∀ (r : Nat) (l : List Nat) (c : List Nat),
    c ∈ combinations r l ↔ c.Sublist l ∧ c.length = r
  | 0, l, c => by
    simp only [combinations, List.mem_singleton]
    constructor
    · rintro rfl; exact ⟨List.nil_sublist l, rfl⟩
    · rintro ⟨_, h⟩; exact List.length_eq_zero.mp h
  | r + 1, [], c => by
    simp only [combinations, List.not_mem_nil, false_iff, not_and]
    intro hs
    rw [List.sublist_nil.mp hs]
    simp
  | r + 1, x :: xs, c => by
    simp only [combinations, List.mem_append, List.mem_map]
    constructor
    · rintro (⟨u, hu, rfl⟩ | h)
      · have h2 := (mem_combinations r xs u).mp hu
        exact ⟨List.Sublist.cons₂ x h2.1, by simp [h2.2]⟩
      · have h2 := (mem_combinations (r + 1) xs c).mp h
        exact ⟨h2.1.cons x, h2.2⟩
    · rintro ⟨hs, hl⟩
      cases c with
      | nil => simp at hl
      | cons y t =>
        cases hs with
        | cons _ h => exact Or.inr ((mem_combinations (r + 1) xs (y :: t)).mpr ⟨h, hl⟩)
        | cons₂ _ h =>
          exact Or.inl ⟨t, (mem_combinations r xs t).mpr ⟨h, by simpa using hl⟩, rfl⟩

theorem sum_choose_range' (n : Nat) :
    ((List.range' 1 n).map (Nat.choose n)).sum = 2 ^ n - 1 := by
  have h0 : ((List.range (n + 1)).map (Nat.choose n)).sum = 2 ^ n :=
    Nat.sum_range_choose n
  have h1 : List.range (n + 1) = 0 :: List.range' 1 n := by
    rw [List.range_eq_range', List.range'_succ]
  rw [h1] at h0
  simp only [List.map_cons, List.sum_cons, Nat.choose_zero_right] at h0
  omega

theorem length_allCombos (n : Nat) : (allCombos n).length = 2 ^ n - 1 := by
  unfold allCombos
  rw [List.length_flatMap]
  simp only [Function.comp_def, length_combinations, List.length_range']
  exact sum_choose_range' n

theorem mem_allCombos {n : Nat} {c : List Nat} :
    c ∈ allCombos n ↔ c.Sublist (List.range' 1 n) ∧ 1 ≤ c.length := by
  unfold allCombos
  rw [List.mem_flatMap]
  constructor
  · rintro ⟨r, hr, hc⟩
    have h2 := (mem_combinations r (List.range' 1 n) c).mp hc
    have hr2 := List.mem_range'_1.mp hr
    exact ⟨h2.1, by omega⟩
  · rintro ⟨hs, hl⟩
    refine ⟨c.length, ?_, (mem_combinations c.length (List.range' 1 n) c).mpr ⟨hs, rfl⟩⟩
    have h3 := hs.length_le
    rw [List.length_range'] at h3
    exact List.mem_range'_1.mpr (by omega)

theorem pairwise_lex_combinations : ∀ (r : Nat) (l : List Nat), l.Pairwise (· < ·) →
    (combinations r l).Pairwise (List.Lex (· < ·))
  | 0, l, _ => by simp [combinations]
  | r + 1, [], _ => by simp [combinations]
  | r + 1, x :: xs, hp => by
    rw [List.pairwise_cons] at hp
    simp only [combinations]
    apply List.pairwise_append.mpr
    refine ⟨?_, pairwise_lex_combinations (r + 1) xs hp.2, ?_⟩
    · apply List.pairwise_map.mpr
      exact (pairwise_lex_combinations r xs hp.2).imp (fun h => List.Lex.cons h)
    · intro a ha b hb
      obtain ⟨u, hu, rfl⟩ := List.mem_map.mp ha
      have h2 := (mem_combinations (r + 1) xs b).mp hb
      cases b with
      | nil => simp at h2
      | cons v w =>
        have hv : v ∈ xs := h2.1.subset (List.mem_cons_self v w)
        exact List.Lex.rel (hp.1 v hv)

theorem pairwise_flatMap {α β : Type} {S : β → β → Prop} {l : List α} {f : α → List β}
    (h1 : ∀ a ∈ l, (f a).Pairwise S)
    (h2 : l.Pairwise (fun a b => ∀ x ∈ f a, ∀ y ∈ f b, S x y)) :
    (l.flatMap f).Pairwise S := by
  induction l with
  | nil => simp
  | cons a l ih =>
    rw [List.pairwise_cons] at h2
    simp only [List.flatMap_cons]
    apply List.pairwise_append.mpr
    refine ⟨h1 a (List.mem_cons_self a l),
      ih (fun b hb => h1 b (List.mem_cons_of_mem a hb)) h2.2, ?_⟩
    intro x hx y hy
    obtain ⟨b, hb, hyb⟩ := List.mem_flatMap.mp hy
    exact h2.1 b hb x hx y hyb

theorem pairwise_imp_mem {α : Type} {R S : α → α → Prop} : ∀ {l : List α},
    (∀ a ∈ l, ∀ b ∈ l, R a b → S a b) → l.Pairwise R → l.Pairwise S := by
  intro l
  induction l with
  | nil => intro _ _; exact List.Pairwise.nil
  | cons a l ih =>
    intro h hp
    rw [List.pairwise_cons] at hp ⊢
    refine ⟨fun b hb => h a (List.mem_cons_self a l) b (List.mem_cons_of_mem a hb) (hp.1 b hb),
      ih (fun x hx y hy => h x (List.mem_cons_of_mem a hx) y (List.mem_cons_of_mem a hy)) hp.2⟩

theorem pairwise_sizeLexLt_allCombos (n : Nat) : (allCombos n).Pairwise sizeLexLt := by
  unfold allCombos
  apply pairwise_flatMap
  · intro r _
    apply pairwise_imp_mem (R := List.Lex (· < ·))
    · intro a ha b hb hlex
      have ha2 := (mem_combinations r (List.range' 1 n) a).mp ha
      have hb2 := (mem_combinations r (List.range' 1 n) b).mp hb
      exact Or.inr ⟨ha2.2.trans hb2.2.symm, hlex⟩
    · exact pairwise_lex_combinations r (List.range' 1 n) (List.pairwise_lt_range' 1 n)
  · apply pairwise_imp_mem (R := (· < ·))
    · intro r _ s _ hrs x hx y hy
      have hx2 := (mem_combinations r (List.range' 1 n) x).mp hx
      have hy2 := (mem_combinations s (List.range' 1 n) y).mp hy
      exact Or.inl (by omega)
    · exact List.pairwise_lt_range' 1 n

theorem sublist_of_sorted_subset : ∀ (l₂ l₁ : List Nat), l₁.Pairwise (· < ·) →
    l₂.Pairwise (· < ·) → (∀ x ∈ l₁, x ∈ l₂) → l₁.Sublist l₂
  | _, [], _, _, _ => List.nil_sublist _
  | [], a :: t₁, _, _, h => absurd (h a (List.mem_cons_self a t₁)) (List.not_mem_nil a)
  | b :: t₂, a :: t₁, hp₁, hp₂, h => by
    rw [List.pairwise_cons] at hp₁ hp₂
    rcases List.mem_cons.mp (h a (List.mem_cons_self a t₁)) with hab | hat
    · subst hab
      apply List.Sublist.cons₂
      apply sublist_of_sorted_subset t₂ t₁ hp₁.2 hp₂.2
      intro x hx
      rcases List.mem_cons.mp (h x (List.mem_cons_of_mem a hx)) with hxb | hxt
      · subst hxb
        exact absurd (hp₁.1 _ hx) (lt_irrefl _)
      · exact hxt
    · apply List.Sublist.cons
      apply sublist_of_sorted_subset t₂ (a :: t₁) (List.pairwise_cons.mpr hp₁) hp₂.2
      intro x hx
      have hba : b < a := hp₂.1 a hat
      rcases List.mem_cons.mp hx with hxa | hxt
      · subst hxa; exact hat
      · have hax : a < x := hp₁.1 x hxt
        rcases List.mem_cons.mp (h x hx) with hxb | h2
        · subst hxb; omega
        · exact h2

theorem lex_lt_irrefl : ∀ (l : List Nat), ¬ List.Lex (· < ·) l l
  | [] => by intro h; cases h
  | x :: xs => by
    intro h
    cases h with
    | cons h => exact lex_lt_irrefl xs h
    | rel h => exact lt_irrefl x h

theorem eq_of_sorted_toFinset_eq {a b : List Nat} (ha : a.Pairwise (· < ·))
    (hb : b.Pairwise (· < ·)) (h : a.toFinset = b.toFinset) : a = b := by
  have hna : a.Nodup := ha.imp (fun h => ne_of_lt h)
  have hnb : b.Nodup := hb.imp (fun h => ne_of_lt h)
  have hperm := List.perm_of_nodup_nodup_toFinset_eq hna hnb h
  haveI : IsAntisymm Nat (· < ·) := ⟨fun x y h1 h2 => absurd h2 (by omega)⟩
  exact List.eq_of_perm_of_sorted hperm ha hb

/-! ## Lemmas about `slotList` and `buildConfigs` -/

theorem slotList_eq (n : Nat) (combo : List Nat) (h : combo.length ≤ n) :
    slotList n combo = combo.map some ++ List.replicate (n - combo.length) none := by
  apply List.ext_getElem
  · simp [slotList]; omega
  · intro i h1 h2
    simp only [slotList, List.getElem_map, List.getElem_range]
    by_cases hi : i < combo.length
    · rw [List.getElem_append_left (by simpa using hi)]
      simp [hi, List.getD_eq_getElem?_getD, List.getElem?_eq_getElem hi]
    · rw [List.getElem_append_right (by simpa using hi)]
      simp [hi]

theorem filterMap_slotList (n : Nat) (combo : List Nat) (h : combo.length ≤ n) :
    (slotList n combo).filterMap id = combo := by
  rw [slotList_eq n combo h]
  simp

theorem slotList_getD (n : Nat) (combo : List Nat) (i : Nat) (hi : i < n) :
    (slotList n combo).getD i none =
      if i < combo.length then some (combo.getD i 0) else none := by
  unfold slotList
  rw [List.getD_eq_getElem?_getD, List.getElem?_map, List.getElem?_range hi]
  rfl

theorem length_slotList (n : Nat) (combo : List Nat) : (slotList n combo).length = n := by
  simp [slotList]

theorem buildConfigs_eq_enumFrom (n : Nat) : ∀ (cs : List (List Nat)) (k : Nat),
    buildConfigs n cs k =
      (cs.enumFrom k).map (fun p => ⟨p.1, slotList n p.2⟩)
  | [], _ => rfl
  | c :: cs, k => by
    simp only [buildConfigs, List.enumFrom, List.map_cons]
    exact congrArg _ (buildConfigs_eq_enumFrom n cs (k + 1))

theorem buildConfigs_map_id (n : Nat) (cs : List (List Nat)) (k : Nat) :
    (buildConfigs n cs k).map (fun c => c.instrument_configuration_id) =
      List.range' k cs.length := by
  rw [buildConfigs_eq_enumFrom, List.map_map]
  have h1 : ((fun c : InstrumentConfiguration => c.instrument_configuration_id) ∘
      (fun p : Nat × List Nat =>
        ({ instrument_configuration_id := p.1, slots := slotList n p.2 } :
          InstrumentConfiguration))) = Prod.fst := rfl
  rw [h1, List.enumFrom_map_fst]

theorem buildConfigs_map_slots (n : Nat) (cs : List (List Nat)) (k : Nat) :
    (buildConfigs n cs k).map (fun c => c.slots) = cs.map (slotList n) := by
  rw [buildConfigs_eq_enumFrom, List.map_map]
  have h1 : ((fun c : InstrumentConfiguration => c.slots) ∘
      (fun p : Nat × List Nat =>
        ({ instrument_configuration_id := p.1, slots := slotList n p.2 } :
          InstrumentConfiguration))) = (slotList n) ∘ Prod.snd := rfl
  rw [h1, ← List.map_map, List.enumFrom_map_snd]

theorem length_buildConfigs (n : Nat) (cs : List (List Nat)) (k : Nat) :
    (buildConfigs n cs k).length = cs.length := by
  rw [buildConfigs_eq_enumFrom]; simp

theorem mem_buildConfigs {n : Nat} {cs : List (List Nat)} {k : Nat}
    {c : InstrumentConfiguration} (h : c ∈ buildConfigs n cs k) :
    ∃ combo ∈ cs, c.slots = slotList n combo := by
  rw [buildConfigs_eq_enumFrom] at h
  obtain ⟨p, hp, rfl⟩ := List.mem_map.mp h
  have h3 := List.mem_enumFrom hp
  refine ⟨p.2, ?_, rfl⟩
  rw [h3.2.2]
  exact List.getElem_mem _

/-- The configuration list of the output is exactly the enumeration loop's
output: the combinations of `allCombos`, ids starting at 1. -/
theorem config_eq (sc : SwxConfigMission) :
    (get_cdftracker_config sc).instrument_configurations =
      buildConfigs sc.inst_names.length (allCombos sc.inst_names.length) 1 := rfl

theorem map_presentSlots (n : Nat) :
    (buildConfigs n (allCombos n) 1).map presentSlots = allCombos n := by
  have h1 : (buildConfigs n (allCombos n) 1).map presentSlots =
      ((buildConfigs n (allCombos n) 1).map (fun c => c.slots)).map (List.filterMap id) := by
    rw [List.map_map]; rfl
  rw [h1, buildConfigs_map_slots, List.map_map]
  have h2 : ∀ c ∈ allCombos n, (List.filterMap id ∘ slotList n) c = id c := by
    intro c hc
    have h3 := mem_allCombos.mp hc
    have hlen : c.length ≤ n := by
      have h4 := h3.1.length_le
      simpa using h4
    exact filterMap_slotList n c hlen
  rw [List.map_congr_left h2, List.map_id]

/-! ## Claim theorems -/

/-- C1: for every well-formed mission configuration with an instrument list of
length N ≥ 1, `get_cdftracker_config` produces exactly 2^N − 1 entries in
`instrument_configurations` (one per non-empty subset of {1..N}). -/
theorem c1_config_count (sc : SwxConfigMission) (hwf : WellFormed sc)
    (hN : 1 ≤ sc.inst_names.length) :
    (get_cdftracker_config sc).instrument_configurations.length =
      2 ^ sc.inst_names.length - 1 := by
  rw [config_eq, length_buildConfigs, length_allCombos]

theorem c1_witness :
    WellFormed scEx ∧ 1 ≤ scEx.inst_names.length ∧
      (get_cdftracker_config scEx).instrument_configurations.length =
        2 ^ scEx.inst_names.length - 1 :=
  ⟨by decide, by decide, c1_config_count scEx (by decide) (by decide)⟩

/-- C2: the `instrument_configuration_id` values over the output configurations
are exactly 1, 2, ..., 2^N − 1 in list order (hence the set {1..2^N − 1},
strictly increasing in enumeration order), and the enumeration order is by
subset size ascending, lexicographic within each size: each configuration's
present-slot list precedes the next in the size-then-lexicographic order. -/
theorem c2_config_ids (sc : SwxConfigMission) (hwf : WellFormed sc)
    (hN : 1 ≤ sc.inst_names.length) :
    (get_cdftracker_config sc).instrument_configurations.map
        (fun c => c.instrument_configuration_id) =
      List.range' 1 (2 ^ sc.inst_names.length - 1) ∧
    (get_cdftracker_config sc).instrument_configurations.Pairwise
      (fun a b => a.instrument_configuration_id < b.instrument_configuration_id ∧
        sizeLexLt (presentSlots a) (presentSlots b)) := by
  constructor
  · rw [config_eq, buildConfigs_map_id, length_allCombos]
  · have hid : (get_cdftracker_config sc).instrument_configurations.Pairwise
        (fun a b => a.instrument_configuration_id < b.instrument_configuration_id) := by
      have h1 := List.pairwise_lt_range' 1 (allCombos sc.inst_names.length).length
      rw [← buildConfigs_map_id sc.inst_names.length _ 1] at h1
      rw [config_eq]
      exact List.pairwise_map.mp h1
    have hsl : (get_cdftracker_config sc).instrument_configurations.Pairwise
        (fun a b => sizeLexLt (presentSlots a) (presentSlots b)) := by
      have h1 := pairwise_sizeLexLt_allCombos sc.inst_names.length
      rw [← map_presentSlots sc.inst_names.length] at h1
      rw [config_eq]
      exact List.pairwise_map.mp h1
    exact hid.and hsl

theorem c2_witness :
    WellFormed scEx ∧ 1 ≤ scEx.inst_names.length ∧
      ((get_cdftracker_config scEx).instrument_configurations.map
          (fun c => c.instrument_configuration_id) =
        List.range' 1 (2 ^ scEx.inst_names.length - 1) ∧
      (get_cdftracker_config scEx).instrument_configurations.Pairwise
        (fun a b => a.instrument_configuration_id < b.instrument_configuration_id ∧
          sizeLexLt (presentSlots a) (presentSlots b))) :=
  ⟨by decide, by decide, c2_config_ids scEx (by decide) (by decide)⟩

/-- C3: each output configuration's set of present slot values is a non-empty
subset of {1..N}, no two configurations have the same present-slot set, and
the collection of present-slot sets over all configurations equals the power
set of {1..N} minus the empty set. -/
theorem c3_subset_collection (sc : SwxConfigMission) (hwf : WellFormed sc)
    (hN : 1 ≤ sc.inst_names.length) :
    ((get_cdftracker_config sc).instrument_configurations.map
        (fun c => (presentSlots c).toFinset)).Nodup ∧
    ∀ s : Finset Nat,
      s ∈ (get_cdftracker_config sc).instrument_configurations.map
          (fun c => (presentSlots c).toFinset) ↔
        s.Nonempty ∧ s ⊆ Finset.Icc 1 sc.inst_names.length := by
  have hmap : (get_cdftracker_config sc).instrument_configurations.map
      (fun c => (presentSlots c).toFinset) =
        (allCombos sc.inst_names.length).map List.toFinset := by
    rw [config_eq]
    conv_rhs => rw [← map_presentSlots sc.inst_names.length]
    rw [List.map_map]
    rfl
  rw [hmap]
  have hsorted : ∀ c ∈ allCombos sc.inst_names.length, c.Pairwise (· < ·) := fun c hc =>
    List.Pairwise.sublist (mem_allCombos.mp hc).1 (List.pairwise_lt_range' 1 _)
  constructor
  · have hne : (allCombos sc.inst_names.length).Pairwise
        (fun a b => a.toFinset ≠ b.toFinset) := by
      apply pairwise_imp_mem (R := sizeLexLt)
      · intro a ha b hb hab heq
        have hae : a = b := eq_of_sorted_toFinset_eq (hsorted a ha) (hsorted b hb) heq
        subst hae
        rcases hab with h | ⟨_, hlex⟩
        · exact absurd h (lt_irrefl _)
        · exact lex_lt_irrefl a hlex
      · exact pairwise_sizeLexLt_allCombos sc.inst_names.length
    show ((allCombos sc.inst_names.length).map List.toFinset).Pairwise (· ≠ ·)
    exact List.pairwise_map.mpr hne
  · intro s
    constructor
    · intro hs
      obtain ⟨c, hc, rfl⟩ := List.mem_map.mp hs
      have hm := mem_allCombos.mp hc
      obtain ⟨a, ha⟩ : ∃ a, a ∈ c := by
        cases c with
        | nil => simp at hm
        | cons a t => exact ⟨a, List.mem_cons_self a t⟩
      refine ⟨⟨a, List.mem_toFinset.mpr ha⟩, ?_⟩
      intro x hx
      have hxr := hm.1.subset (List.mem_toFinset.mp hx)
      have h5 := List.mem_range'_1.mp hxr
      exact Finset.mem_Icc.mpr ⟨h5.1, by omega⟩
    · rintro ⟨hne, hsub⟩
      have hcs : (s.sort (· ≤ ·)).Pairwise (· < ·) := Finset.sort_sorted_lt s
      have hmemc : ∀ x ∈ s.sort (· ≤ ·), x ∈ List.range' 1 sc.inst_names.length := by
        intro x hx
        have hxs : x ∈ s := (Finset.mem_sort _).mp hx
        have h6 := Finset.mem_Icc.mp (hsub hxs)
        exact List.mem_range'_1.mpr (by omega)
      have hsl : (s.sort (· ≤ ·)).Sublist (List.range' 1 sc.inst_names.length) :=
        sublist_of_sorted_subset _ _ hcs (List.pairwise_lt_range' 1 _) hmemc
      have hlen : 1 ≤ (s.sort (· ≤ ·)).length := by
        rw [Finset.length_sort]
        exact Finset.card_pos.mpr hne
      exact List.mem_map.mpr
        ⟨s.sort (· ≤ ·), mem_allCombos.mpr ⟨hsl, hlen⟩, Finset.sort_toFinset _ s⟩

theorem c3_witness :
    WellFormed scEx ∧ 1 ≤ scEx.inst_names.length ∧
      (((get_cdftracker_config scEx).instrument_configurations.map
          (fun c => (presentSlots c).toFinset)).Nodup ∧
      ∀ s : Finset Nat,
        s ∈ (get_cdftracker_config scEx).instrument_configurations.map
            (fun c => (presentSlots c).toFinset) ↔
          s.Nonempty ∧ s ⊆ Finset.Icc 1 scEx.inst_names.length) :=
  ⟨by decide, by decide, c3_subset_collection scEx (by decide) (by decide)⟩

/-- C4: every output configuration is a fixed-width record of N slot fields
built from a combination: slot i (0-based) holds the i-th element of the
combination when i is below the combination's size and the absent marker
(`none`) otherwise, so the present values are the combination in ascending
order, left-packed into the first slots. -/
theorem c4_slot_records (sc : SwxConfigMission) (hwf : WellFormed sc)
    (hN : 1 ≤ sc.inst_names.length) :
    ∀ c ∈ (get_cdftracker_config sc).instrument_configurations,
      ∃ combo : List Nat,
        combo ∈ allCombos sc.inst_names.length ∧
        combo.Pairwise (· < ·) ∧
        1 ≤ combo.length ∧ combo.length ≤ sc.inst_names.length ∧
        c.slots.length = sc.inst_names.length ∧
        (∀ i, i < sc.inst_names.length →
          c.slots.getD i none =
            if i < combo.length then some (combo.getD i 0) else none) ∧
        c.slots = combo.map some ++
          List.replicate (sc.inst_names.length - combo.length) none := by
  intro c hc
  rw [config_eq] at hc
  obtain ⟨combo, hcombo, hslots⟩ := mem_buildConfigs hc
  have hm := mem_allCombos.mp hcombo
  have hlen : combo.length ≤ sc.inst_names.length := by
    have h4 := hm.1.length_le
    simpa using h4
  refine ⟨combo, hcombo,
    List.Pairwise.sublist hm.1 (List.pairwise_lt_range' 1 _), hm.2, hlen, ?_, ?_, ?_⟩
  · rw [hslots, length_slotList]
  · intro i hi
    rw [hslots]
    exact slotList_getD _ combo i hi
  · rw [hslots]
    exact slotList_eq _ combo hlen

theorem c4_witness :
    WellFormed scEx ∧ 1 ≤ scEx.inst_names.length ∧
      ∀ c ∈ (get_cdftracker_config scEx).instrument_configurations,
        ∃ combo : List Nat,
          combo ∈ allCombos scEx.inst_names.length ∧
          combo.Pairwise (· < ·) ∧
          1 ≤ combo.length ∧ combo.length ≤ scEx.inst_names.length ∧
          c.slots.length = scEx.inst_names.length ∧
          (∀ i, i < scEx.inst_names.length →
            c.slots.getD i none =
              if i < combo.length then some (combo.getD i 0) else none) ∧
          c.slots = combo.map some ++
            List.replicate (scEx.inst_names.length - combo.length) none :=
  ⟨by decide, by decide, c4_slot_records scEx (by decide) (by decide)⟩

/-- C5: for any well-formed three-instrument mission configuration,
`get_cdftracker_config` produces exactly the 7 configurations
[1,_,_], [2,_,_], [3,_,_], [1,2,_], [1,3,_], [2,3,_], [1,2,3] in that order,
with `instrument_configuration_id` 1 through 7 respectively. -/
theorem c5_three_instruments (sc : SwxConfigMission) (hwf : WellFormed sc)
    (h3 : sc.inst_names.length = 3) :
    (get_cdftracker_config sc).instrument_configurations =
      [⟨1, [some 1, none, none]⟩, ⟨2, [some 2, none, none]⟩,
       ⟨3, [some 3, none, none]⟩, ⟨4, [some 1, some 2, none]⟩,
       ⟨5, [some 1, some 3, none]⟩, ⟨6, [some 2, some 3, none]⟩,
       ⟨7, [some 1, some 2, some 3]⟩] := by
  rw [config_eq, h3]
  decide

theorem c5_witness :
    WellFormed scEx ∧ scEx.inst_names.length = 3 ∧
      (get_cdftracker_config scEx).instrument_configurations =
        [⟨1, [some 1, none, none]⟩, ⟨2, [some 2, none, none]⟩,
         ⟨3, [some 3, none, none]⟩, ⟨4, [some 1, some 2, none]⟩,
         ⟨5, [some 1, some 3, none]⟩, ⟨6, [some 2, some 3, none]⟩,
         ⟨7, [some 1, some 2, some 3]⟩] :=
  ⟨by decide, by decide, c5_three_instruments scEx (by decide) (by decide)⟩

/-- C6: for every well-formed mission configuration, the instrument record at
0-based index idx has `instrument_id = idx + 1`, `full_name` and `short_name`
taken from the parallel lists at idx, and `description` equal to
`"{full_name} ({target_name})"` with the target name from the parallel list. -/
theorem c6_instrument_records (sc : SwxConfigMission) (hwf : WellFormed sc)
    (idx : Nat) (hidx : idx < sc.inst_names.length) :
    (get_cdftracker_config sc).instruments.length = sc.inst_names.length ∧
    ∃ full target short,
      sc.inst_fullnames[idx]? = some full ∧
      sc.inst_targetnames[idx]? = some target ∧
      sc.inst_shortnames[idx]? = some short ∧
      (get_cdftracker_config sc).instruments[idx]? =
        some { instrument_id := idx + 1
               description := full ++ " (" ++ target ++ ")"
               full_name := full
               short_name := short } := by
  obtain ⟨hf, hs, ht⟩ := hwf
  refine ⟨by simp [get_cdftracker_config], ?_⟩
  refine ⟨sc.inst_fullnames.getD idx "", sc.inst_targetnames.getD idx "",
    sc.inst_shortnames.getD idx "", ?_, ?_, ?_, ?_⟩
  · have hb : idx < sc.inst_fullnames.length := by omega
    simp [List.getElem?_eq_getElem hb, List.getD_eq_getElem?_getD]
  · have hb : idx < sc.inst_targetnames.length := by omega
    simp [List.getElem?_eq_getElem hb, List.getD_eq_getElem?_getD]
  · have hb : idx < sc.inst_shortnames.length := by omega
    simp [List.getElem?_eq_getElem hb, List.getD_eq_getElem?_getD]
  · simp [get_cdftracker_config, List.getElem?_map, List.getElem?_range hidx]

theorem c6_witness :
    WellFormed scEx ∧ 1 < scEx.inst_names.length ∧
      ((get_cdftracker_config scEx).instruments.length = scEx.inst_names.length ∧
      ∃ full target short,
        scEx.inst_fullnames[1]? = some full ∧
        scEx.inst_targetnames[1]? = some target ∧
        scEx.inst_shortnames[1]? = some short ∧
        (get_cdftracker_config scEx).instruments[1]? =
          some { instrument_id := 1 + 1
                 description := full ++ " (" ++ target ++ ")"
                 full_name := full
                 short_name := short }) :=
  ⟨by decide, by decide, c6_instrument_records scEx (by decide) 1 (by decide)⟩

/-- C7 counterexample: an exception that is not a botocore `ClientError`,
raised inside `_generate_timestream_artifacts`, is not caught within that
method: it propagates out of `_process_artifacts` and the CDFTracker step
never runs, refuting the claim that each of the three generator methods
catches every exception raised inside it. -/
theorem c7_counterexample :
    generate_timestream_artifacts (some (.otherExn "boom")) =
      .error (.otherExn "boom") ∧
    process_artifacts none (some (.otherExn "boom")) (some "arn") none =
      (some (.otherExn "boom"), ⟨true, true, false⟩) := ⟨rfl, rfl⟩

/-- C7 (amended): the Slack and CDFTracker generator methods catch every
exception raised inside them; the Timestream method catches only botocore
`ClientError` — with no exception or a `ClientError` there, all three steps
run and nothing propagates, while any other exception raised in the
Timestream step propagates out of `_process_artifacts` and prevents the
CDFTracker step from running. -/
theorem c7_isolation_amended (slackBeh tsBeh cdfBeh : Option PyExn)
    (secret_arn : Option String) :
    generate_slack_artifacts slackBeh = .ok () ∧
    generate_cdftracker_artifacts secret_arn cdfBeh = .ok () ∧
    (tsBeh = none ∨ tsBeh = some .clientError →
      process_artifacts slackBeh tsBeh secret_arn cdfBeh = (none, ⟨true, true, true⟩)) ∧
    (∀ e : PyExn, e ≠ .clientError → tsBeh = some e →
      process_artifacts slackBeh tsBeh secret_arn cdfBeh =
        (some e, ⟨true, true, false⟩)) := by
  have hs : generate_slack_artifacts slackBeh = .ok () := by
    cases slackBeh with
    | none => rfl
    | some e => cases e <;> rfl
  have hc : generate_cdftracker_artifacts secret_arn cdfBeh = .ok () := by
    cases secret_arn with
    | none => rfl
    | some a => cases cdfBeh <;> rfl
  refine ⟨hs, hc, ?_, ?_⟩
  · rintro (rfl | rfl) <;> simp [process_artifacts, hs, hc, generate_timestream_artifacts]
  · rintro e he rfl
    have ht : generate_timestream_artifacts (some e) = .error e := by
      cases e with
      | clientError => exact absurd rfl he
      | slackApiError code => rfl
      | otherExn msg => rfl
    simp [process_artifacts, hs, hc, ht]

theorem c7_witness :
    process_artifacts none (some .clientError) (some "arn") none =
      (none, ⟨true, true, true⟩) ∧
    process_artifacts none (some (.otherExn "x")) (some "arn") none =
      (some (.otherExn "x"), ⟨true, true, false⟩) :=
  ⟨(c7_isolation_amended none (some .clientError) none (some "arn")).2.2.1 (Or.inr rfl),
   (c7_isolation_amended none (some (.otherExn "x")) none
      (some "arn")).2.2.2 (.otherExn "x") (by simp) rfl⟩

/-- C8: `get_cdftracker_config` is pure — in the statement-level state-passing
embedding the input mission data is returned unchanged after the call, and the
result is exactly the pure function of the input. -/
theorem c8_no_mutation (sc : SwxConfigMission) :
    (get_cdftracker_config_st sc).1 = sc ∧
      (get_cdftracker_config_st sc).2 = get_cdftracker_config sc :=
  ⟨rfl, rfl⟩

/-- C9: `get_cdftracker_config` is deterministic — two calls on deeply equal
inputs produce deeply equal outputs. -/
theorem c9_deterministic (sc₁ sc₂ : SwxConfigMission) (h : sc₁ = sc₂) :
    get_cdftracker_config sc₁ = get_cdftracker_config sc₂ := by rw [h]

theorem c9_witness :
    scEx = scEx ∧ get_cdftracker_config scEx = get_cdftracker_config scEx :=
  ⟨rfl, c9_deterministic scEx scEx rfl⟩

/-- C10: when the decoded SNS message's Records list is empty, `handle_event`
raises nothing and returns `None` (modelled as `none`) rather than a 200 or
500 response dict; and with several records, only the first is processed
before the 200 response is returned from inside the loop. -/
theorem c10_empty_and_first (proc : S3Record → Except String Unit)
    (r : S3Record) (rest : List S3Record) (hr : proc r = .ok ()) :
    handle_event proc [] = (none, []) ∧
      handle_event proc (r :: rest) =
        (some ⟨200, "Artifacts Processed Successfully"⟩, [r]) := by
  refine ⟨rfl, ?_⟩
  simp [handle_event, recordsLoop, hr]

/-- A processing action that always succeeds, for the C10 witness. -/
def procOk : S3Record → Except String Unit := fun _ => .ok ()

theorem c10_witness :
    procOk ⟨"hermes-eea", "file1.bin"⟩ = .ok () ∧
      (handle_event procOk [] = (none, []) ∧
        handle_event procOk [⟨"hermes-eea", "file1.bin"⟩, ⟨"hermes-eea", "file2.bin"⟩] =
          (some ⟨200, "Artifacts Processed Successfully"⟩, [⟨"hermes-eea", "file1.bin"⟩])) :=
  ⟨rfl, c10_empty_and_first procOk ⟨"hermes-eea", "file1.bin"⟩
    [⟨"hermes-eea", "file2.bin"⟩] rfl⟩

end ProcessArtifacts
